import Mathlib

/-!
Verification of `packages/cli/src/workflows/workflows.services.ts`
(`WorkflowsService.getSharing`, `WorkflowsService.getMany`,
`WorkflowsService.updateWorkflow`).

Shallow embedding conventions:

* The relational store is an explicit `StoreState` (workflow rows, share
  rows, the tag table and the workflow-tag association rows).  TypeORM's
  `update(id, partial)` is modelled by `storeUpdateWorkflow`: a partial
  field write keyed by workflow id in which absent (`undefined`) fields
  are skipped.
* External collaborators are oracle inputs carried by `Env`:
  the Trigger Runtime's `remove`/`add` results (`removeResult`,
  `addResult`, errors are opaque `Nat` codes that propagate verbatim, as
  a JS rejection does), the `validateEntity` verdict (`validateOk`, the
  class-validator rules live outside `src/`), configuration reads
  (`tagsDisabled`, `defaultTimeout`) and the clock (`now`).
  `externalHooks.run` and `InternalHooksManager.onWorkflowSaved` are
  side-effect-free observers here; `replaceInvalidCredentials` and
  `addNodeIds` only rewrite the node payload, which is opaque (`nodes :
  Nat`) in this model.
* `updateWorkflow` returns an `UpdateOutcome`: the JS return/throw value,
  the ordered trace of externally visible calls (`Event`), the final
  store, and the final states of the two entity objects the function
  mutates in place (the caller's proposed entity and the reloaded
  canonical record) — the latter matter because the compensation path
  mutates them and then rethrows.
* Workflow ids are the store's numeric ids (`Int`); the route-level
  string id is parsed upstream of this service.
* Setting values compared against the `"DEFAULT"` sentinel are modelled
  as strings; `executionTimeout` is an integer (JSON floats are out of
  scope), so the source's `parseInt(x) === configuredDefault` becomes an
  integer equality test.
-/

instance {ε α : Type} [DecidableEq ε] [DecidableEq α] : DecidableEq (Except ε α) := fun a b =>
  match a, b with
  | Except.ok x, Except.ok y =>
    if h : x = y then isTrue (by rw [h]) else isFalse (fun hc => h (Except.ok.inj hc))
  | Except.error x, Except.error y =>
    if h : x = y then isTrue (by rw [h]) else isFalse (fun hc => h (Except.error.inj hc))
  | Except.ok _, Except.error _ => isFalse (fun hc => Except.noConfusion hc)
  | Except.error _, Except.ok _ => isFalse (fun hc => Except.noConfusion hc)

/-- A user: identity and the name of the global role
(`user.globalRole.name` in the source; `"owner"` is the bypass role). -/
structure User where
  id : String
  globalRoleName : String
deriving DecidableEq

/-- A tag row (`Tag` entity): identity and name. -/
structure Tag where
  id : String
  name : String
deriving DecidableEq

/-- The workflow settings object.  Each field is `none` when the key is
absent from the JS object.  The four sentinel-able keys hold strings; the
execution timeout holds an integer (see file comment). -/
structure WorkflowSettings where
  timezone : Option String
  saveDataErrorExecution : Option String
  saveDataSuccessExecution : Option String
  saveManualExecutions : Option String
  executionTimeout : Option Int
deriving DecidableEq

/-- A `WorkflowEntity`.  `name = ""` models a falsy JS name; `settings`
and `hash` are `none` when the property is `undefined`; `tags` is the
eagerly loaded relation (`none` when the relation was not loaded). -/
structure WorkflowEntity where
  id : Int
  name : String
  active : Bool
  nodes : Nat
  settings : Option WorkflowSettings
  hash : Option String
  updatedAt : Int
  tags : Option (List Tag)
deriving DecidableEq

/-- A `SharedWorkflow` join row. -/
structure SharedWorkflow where
  userId : String
  workflowId : Int
  roleName : String
deriving DecidableEq

/-- The relational store: workflow rows, share rows, the tag table, and
the workflow-tag association rows (workflow id, tag id). -/
structure StoreState where
  workflows : List WorkflowEntity
  shares : List SharedWorkflow
  tags : List Tag
  tagRels : List (Int × String)
deriving DecidableEq

/-- The partial field set passed to `Db.collections.Workflow.update`.
The main write is built from `const { hash, ...rest } = workflow`, so it
carries every column of the entity except possibly `hash` (`hash = none`
models the field being absent from the partial update; the id key of the
update is carried by the surrounding call, and `tags` is a relation, not
a column). -/
structure UpdatePayload where
  name : String
  active : Bool
  nodes : Nat
  settings : Option WorkflowSettings
  updatedAt : Int
  hash : Option String
deriving DecidableEq

/-- Externally visible calls made by `updateWorkflow`, in order. -/
inductive Event
  | runtimeRemove (workflowId : Int)
  | storeUpdate (workflowId : Int) (p : UpdatePayload)
  | tagRemoveRelations (workflowId : Int)
  | tagCreateRelations (workflowId : Int) (tagIds : List String)
  | runtimeAdd (workflowId : Int) (mode : String)
deriving DecidableEq

/-- Errors surfaced by the service.  `http` is a
`ResponseHelper.ResponseError` with its HTTP status; `validation` is the
`validateEntity` failure; `external e` is a raw Trigger Runtime rejection
propagated unchanged (`e` is the opaque error identity). -/
inductive ApiError
  | http (message : String) (httpStatusCode : Nat)
  | validation
  | external (e : Nat)
deriving DecidableEq

/-- Oracle inputs: configuration reads and the outcomes of the external
calls a single `updateWorkflow` run performs (see file comment). -/
structure Env where
  tagsDisabled : Bool
  sharingEnabled : Bool
  defaultTimeout : Int
  now : Int
  removeResult : Except Nat Unit
  addResult : Except Nat Unit
  validateOk : Bool
deriving DecidableEq

/-- `Db.collections.Workflow.findOne(workflowId)`. -/
def findWorkflow (st : StoreState) (wid : Int) : Option WorkflowEntity :=
  st.workflows.find? (fun wf => decide (wf.id = wid))

/-- TypeORM partial update of one row: defined fields overwrite, absent
(`undefined`) fields are skipped.  The row's id is not touched. -/
def applyPayload (w : WorkflowEntity) (p : UpdatePayload) : WorkflowEntity :=
  { w with
    name := p.name
    active := p.active
    nodes := p.nodes
    updatedAt := p.updatedAt
    settings := match p.settings with | some s => some s | none => w.settings
    hash := match p.hash with | some h => some h | none => w.hash }

/-- `Db.collections.Workflow.update(workflowId, payload)`. -/
def storeUpdateWorkflow (st : StoreState) (wid : Int) (p : UpdatePayload) : StoreState :=
  { st with
    workflows := st.workflows.map (fun w => if w.id = wid then applyPayload w p else w) }

/-! ## Sharing Resolver (`WorkflowsService.getSharing`, source lines 40-64) -/

/-- The `FindOneOptions` object `getSharing` builds: a where clause on
the workflow id, optionally on the user id, and the requested relations. -/
structure ShareFindOptions where
  whereWorkflowId : Int
  whereUserId : Option String
  relations : List String
deriving DecidableEq

/-- Lines 46-61: the options start from `{ where: { workflow: { id } } }`;
the user constraint is added unless `allowGlobalOwner` holds and the
user's global role is `"owner"`; `options.relations` is set only when the
relations list is non-empty. -/
def getSharingOptions (user : User) (workflowId : Int) (relations : List String)
    (allowGlobalOwner : Bool) : ShareFindOptions :=
  let base : ShareFindOptions :=
    { whereWorkflowId := workflowId, whereUserId := none, relations := [] }
  let withUser : ShareFindOptions :=
    if allowGlobalOwner = false ∨ ¬(user.globalRoleName = "owner") then
      { base with whereUserId := some user.id }
    else base
  if relations.isEmpty then withUser else { withUser with relations := relations }

/-- Whether a share row satisfies the where clause of `ShareFindOptions`. -/
def shareMatches (opts : ShareFindOptions) (s : SharedWorkflow) : Bool :=
  decide (s.workflowId = opts.whereWorkflowId) &&
    (match opts.whereUserId with
     | some uid => decide (s.userId = uid)
     | none => true)

/-- Line 63: `Db.collections.SharedWorkflow.findOne(options)` — the first
matching row, or `none` for absence (absence never throws). -/
def getSharing (st : StoreState) (user : User) (workflowId : Int) (relations : List String)
    (allowGlobalOwner : Bool) : Option SharedWorkflow :=
  st.shares.find? (shareMatches (getSharingOptions user workflowId relations allowGlobalOwner))

/-! ## Query Filter Validator (`getMany`, source lines 78-101) -/

/-- A primitive JSON value as it can appear as a field of the decoded
filter object.  `comp` stands for any composite (nested array/object)
value, which the filter schema can only reject. -/
inductive JsonPrim
  | null
  | bool (b : Bool)
  | num (n : Int)
  | str (s : String)
  | comp (tag : Nat)
deriving DecidableEq

/-- The result of `jsonParse(rawFilter)`: either a JSON object (an
association list without duplicate keys, as produced by a JSON parser)
or a primitive. -/
inductive JsonVal
  | prim (p : JsonPrim)
  | obj (fields : List (String × JsonPrim))
deriving DecidableEq

/-- JS truthiness of the parsed value (`if (filterJson)`). -/
def jsTruthy : JsonVal → Bool
  | JsonVal.prim JsonPrim.null => false
  | JsonVal.prim (JsonPrim.bool b) => b
  | JsonVal.prim (JsonPrim.num n) => !decide (n = 0)
  | JsonVal.prim (JsonPrim.str s) => !decide (s = "")
  | JsonVal.prim (JsonPrim.comp _) => true
  | JsonVal.obj _ => true

/-- Line 37: the keys of `schemaGetWorkflowsQueryFilter.properties`. -/
def allowedKeys : List String := ["id", "name", "active"]

/-- Lines 83-85: every key outside the allow-list is deleted from the
decoded object. -/
def pruneFilter (fields : List (String × JsonPrim)) : List (String × JsonPrim) :=
  fields.filter (fun kv => decide (kv.fst ∈ allowedKeys))

/-- The per-property checks of `schemaGetWorkflowsQueryFilter`:
`id` is integer-or-string, `name` a string, `active` a boolean; keys
outside `properties` are unconstrained (the schema sets no
`additionalProperties`). -/
def primValidFor (key : String) (v : JsonPrim) : Bool :=
  if key = "id" then
    match v with
    | JsonPrim.num _ => true
    | JsonPrim.str _ => true
    | _ => false
  else if key = "name" then
    match v with
    | JsonPrim.str _ => true
    | _ => false
  else if key = "active" then
    match v with
    | JsonPrim.bool _ => true
    | _ => false
  else true

/-- `jsonSchemaValidate(value, schemaGetWorkflowsQueryFilter).valid`:
the value must be a JSON object (`type: 'object'`) whose present
properties conform. -/
def schemaValid (v : JsonVal) : Bool :=
  match v with
  | JsonVal.obj fields => fields.all (fun kv => primValidFor kv.fst kv.snd)
  | JsonVal.prim _ => false

/-- The filter id as decoded (`id?: number | string`). -/
inductive FilterId
  | num (n : Int)
  | str (s : String)
deriving DecidableEq

/-- The accepted filter (`IGetWorkflowsQueryFilter`). -/
structure QueryFilter where
  id : Option FilterId
  name : Option String
  active : Option Bool
deriving DecidableEq

def lookupField (fields : List (String × JsonPrim)) (k : String) : Option JsonPrim :=
  (fields.find? (fun kv => decide (kv.fst = k))).map Prod.snd

/-- Reading the three allowed properties off the (pruned, schema-valid)
object into `IGetWorkflowsQueryFilter`. -/
def decodeFilter (fields : List (String × JsonPrim)) : QueryFilter :=
  { id :=
      match lookupField fields "id" with
      | some (JsonPrim.num n) => some (FilterId.num n)
      | some (JsonPrim.str s) => some (FilterId.str s)
      | _ => none
    name :=
      match lookupField fields "name" with
      | some (JsonPrim.str s) => some s
      | _ => none
    active :=
      match lookupField fields "active" with
      | some (JsonPrim.bool b) => some b
      | _ => none }

/-- Lines 82-89 applied to a successfully parsed value: falsy value ⇒ no
filter; object ⇒ prune to the allow-list, then accept iff the pruned
object is schema-valid; a truthy non-object never yields a filter (the
schema's `type: 'object'` rejects primitives; index properties of string
primitives are not modelled). -/
def validateFilter (v : JsonVal) : Option QueryFilter :=
  if jsTruthy v = false then none
  else
    match v with
    | JsonVal.obj fields =>
      let pruned := pruneFilter fields
      if schemaValid (JsonVal.obj pruned) then some (decodeFilter pruned) else none
    | JsonVal.prim _ => none

/-! ## getMany (source lines 70-142) -/

/-- Maximal decimal-digit prefix, `none` when empty (`NaN`). -/
def parseIntCore (cs : List Char) : Option Int :=
  let digits := cs.takeWhile Char.isDigit
  if digits.isEmpty then none
  else some (Int.ofNat (digits.foldl (fun a c => a * 10 + (c.toNat - 48)) 0))

def isHexDigit (c : Char) : Bool :=
  decide (48 ≤ c.toNat ∧ c.toNat ≤ 57) || decide (97 ≤ c.toNat ∧ c.toNat ≤ 102) ||
    decide (65 ≤ c.toNat ∧ c.toNat ≤ 70)

def hexVal (c : Char) : Nat :=
  if decide (97 ≤ c.toNat) then c.toNat - 87
  else if decide (65 ≤ c.toNat) then c.toNat - 55
  else c.toNat - 48

/-- Maximal hexadecimal-digit prefix, `none` when empty (`NaN`). -/
def parseIntCoreHex (cs : List Char) : Option Int :=
  let digits := cs.takeWhile isHexDigit
  if digits.isEmpty then none
  else some (Int.ofNat (digits.foldl (fun a c => a * 16 + hexVal c) 0))

/-- After whitespace and sign: a `0x`/`0X` prefix selects hexadecimal
(ECMA-262 radix auto-detection), anything else is parsed as decimal. -/
def parseIntUnsigned : List Char → Option Int
  | '0' :: c :: rest =>
    if c = 'x' ∨ c = 'X' then parseIntCoreHex rest
    else parseIntCore ('0' :: c :: rest)
  | cs => parseIntCore cs

/-- Radix-less JS `parseInt(s)` as called on line 105: skip leading
whitespace, optional sign, then auto-detect the radix — `0x`/`0X`
prefixes are parsed as hexadecimal (`parseInt("0x10") = 16`), everything
else as the maximal decimal-digit prefix; `none` is `NaN`. -/
def parseIntJs (s : String) : Option Int :=
  match s.data.dropWhile Char.isWhitespace with
  | [] => none
  | c :: cs =>
    if c = '-' then (parseIntUnsigned cs).map Int.neg
    else if c = '+' then parseIntUnsigned cs
    else parseIntUnsigned (c :: cs)

/-- `filter.id.toString()`. -/
def FilterId.toStr : FilterId → String
  | FilterId.num n => toString n
  | FilterId.str s => s

/-- Lossless decimal reading of a whole string (SQLite-style numeric
affinity for comparing a string filter id against the integer id
column): `none` when the string is not an optionally signed digit run. -/
def parseAllDigits (cs : List Char) : Option Nat :=
  if cs.isEmpty then none
  else if cs.all Char.isDigit then
    some (cs.foldl (fun a c => a * 10 + (c.toNat - 48)) 0)
  else none

def strToInt? (s : String) : Option Int :=
  match s.data with
  | c :: cs =>
    if c = '-' then (parseAllDigits cs).map (fun n => -(Int.ofNat n))
    else (parseAllDigits (c :: cs)).map Int.ofNat
  | [] => none

/-- The id condition of the issued `find` query's where clause. -/
inductive IdCond
  | inList (ids : List Int)
  | eqFilter (v : FilterId)
deriving DecidableEq

/-- The where clause of the issued query.  Lines 126-131: the clause is
`{ id: In(sharedWorkflowIds), ...filter }`, so a filter id *replaces*
the `In` condition, and filter name/active add conditions. -/
structure IssuedQuery where
  idCond : IdCond
  nameCond : Option String
  activeCond : Option Bool
deriving DecidableEq

def buildWhere (sharedIds : List Int) (filter : Option QueryFilter) : IssuedQuery :=
  match filter with
  | none => { idCond := IdCond.inList sharedIds, nameCond := none, activeCond := none }
  | some f =>
    { idCond :=
        match f.id with
        | some fid => IdCond.eqFilter fid
        | none => IdCond.inList sharedIds
      nameCond := f.name
      activeCond := f.active }

def idCondMatches : IdCond → Int → Bool
  | IdCond.inList ids, i => decide (i ∈ ids)
  | IdCond.eqFilter (FilterId.num n), i => decide (i = n)
  | IdCond.eqFilter (FilterId.str s), i => decide (strToInt? s = some i)

def rowMatches (q : IssuedQuery) (w : WorkflowEntity) : Bool :=
  idCondMatches q.idCond w.id &&
    (match q.nameCond with | some nm => decide (w.name = nm) | none => true) &&
    (match q.activeCond with | some a => decide (w.active = a) | none => true)

/-- `Db.collections.Workflow.find(query)` restricted to row selection
(the `select`/`relations` configuration only shapes the returned
columns). -/
def runQuery (st : StoreState) (q : IssuedQuery) : List WorkflowEntity :=
  st.workflows.filter (rowMatches q)

/-- Lines 134-141: each row is returned with its id stringified. -/
structure ListedWorkflow where
  id : String
  name : String
  active : Bool
  updatedAt : Int
deriving DecidableEq

def toListed (w : WorkflowEntity) : ListedWorkflow :=
  { id := toString w.id, name := w.name, active := w.active, updatedAt := w.updatedAt }

/-- Lines 104-110, the pre-query safeguard: with a filter id present,
`workflowId = parseInt(filter.id.toString())`; only a *truthy* parse
result (non-`NaN`, non-zero) that is not among the caller's shared ids
short-circuits to `[]`. -/
def filterBlocked (sharedIds : List Int) (filter : Option QueryFilter) : Bool :=
  match filter with
  | some f =>
    match f.id with
    | some fid =>
      match parseIntJs fid.toStr with
      | some n => !decide (n = 0) && !decide (n ∈ sharedIds)
      | none => false
    | none => false
  | none => false

def filterParseMsg : String := "Parameter \"filter\" contained invalid JSON string."

def getManyWithFilter (st : StoreState) (sharedIds : List Int) (filter : Option QueryFilter) :
    Except ApiError (List ListedWorkflow) × Option IssuedQuery :=
  if filterBlocked sharedIds filter then (Except.ok [], none)
  else
    let q := buildWhere sharedIds filter
    (Except.ok ((runQuery st q).map toListed), some q)

/-- `WorkflowsService.getMany`.  `sharedWorkflowIds` is the result of the
`getSharedWorkflowIds(user)` call (that helper lives outside `src/`; per
its call-site comment it returns all workflow ids for global owners).
`rawFilter` is the `jsonParse` outcome of the raw filter text: `none`
for an absent/falsy raw filter, `some (Except.error ())` when the text
is unparseable (the `catch` rethrows as an HTTP 500 `ResponseError`),
`some (Except.ok v)` for a successful parse.  The second component is
the query issued to the store, when one is issued. -/
def getMany (st : StoreState) (_user : User) (sharedWorkflowIds : List Int)
    (rawFilter : Option (Except Unit JsonVal)) :
    Except ApiError (List ListedWorkflow) × Option IssuedQuery :=
  if sharedWorkflowIds.isEmpty then (Except.ok [], none)
  else
    match rawFilter with
    | some (Except.error _) => (Except.error (ApiError.http filterParseMsg 500), none)
    | some (Except.ok v) => getManyWithFilter st sharedWorkflowIds (validateFilter v)
    | none => getManyWithFilter st sharedWorkflowIds none

/-! ## Update-Activation Orchestrator (`updateWorkflow`, source lines 144-289) -/

/-- Modelled from the spec: the `whereClause` helper used by
`updateWorkflow`'s share lookup (lines 152-159) is not under `src/`.
Per spec §4.1 the lookup is keyed by workflow id and the user-identity
constraint is omitted exactly when the user's global role is `"owner"`;
the `relations: ['workflow']` eager join is modelled by pairing the share
row with its workflow row (the join yields a row only when the workflow
exists). -/
def findSharedForUpdate (st : StoreState) (user : User) (wid : Int) :
    Option (SharedWorkflow × WorkflowEntity) :=
  match st.shares.find? (fun s =>
      decide (s.workflowId = wid) &&
        (decide (user.globalRoleName = "owner") || decide (s.userId = user.id))) with
  | none => none
  | some s => (findWorkflow st wid).map (fun w => (s, w))

def workflowNotFoundMsg (wid : Int) : String :=
  "Workflow with ID \"" ++ toString wid ++ "\" could not be found to be updated."

/-- Lines 194-218, the Mutation Normalizer's settings pass: each key is
deleted when it holds the sentinel (`=== 'DEFAULT'`, or, for
`executionTimeout`, `parseInt(value) === config.get('executions.timeout')`). -/
def normalizeSettings (defaultTimeout : Int) (s : WorkflowSettings) : WorkflowSettings :=
  { timezone := if s.timezone = some "DEFAULT" then none else s.timezone
    saveDataErrorExecution :=
      if s.saveDataErrorExecution = some "DEFAULT" then none else s.saveDataErrorExecution
    saveDataSuccessExecution :=
      if s.saveDataSuccessExecution = some "DEFAULT" then none else s.saveDataSuccessExecution
    saveManualExecutions :=
      if s.saveManualExecutions = some "DEFAULT" then none else s.saveManualExecutions
    executionTimeout :=
      if s.executionTimeout = some defaultTimeout then none else s.executionTimeout }

/-- Lines 194-221: settings normalization (skipped when `settings` is
absent), then, if the name is truthy, the updated-timestamp is stamped
with the current time (required by the atomic partial update). -/
def normalizeProposed (env : Env) (w : WorkflowEntity) : WorkflowEntity :=
  let w1 := { w with settings := w.settings.map (normalizeSettings env.defaultTimeout) }
  if w1.name = "" then w1 else { w1 with updatedAt := env.now }

/-- Line 225: `const { hash, ...rest } = workflow` — the main write's
payload is every column except `hash`. -/
def payloadNoHash (w : WorkflowEntity) : UpdatePayload :=
  { name := w.name, active := w.active, nodes := w.nodes, settings := w.settings,
    updatedAt := w.updatedAt, hash := none }

/-- Line 278: the compensation write passes the whole mutated entity,
`hash` included. -/
def payloadFull (w : WorkflowEntity) : UpdatePayload :=
  { name := w.name, active := w.active, nodes := w.nodes, settings := w.settings,
    updatedAt := w.updatedAt, hash := w.hash }

/-- Modelled from the spec: `TagHelpers.removeRelations` is not under
`src/`; per §4.4 it removes every tag association row of the workflow. -/
def removeRelations (st : StoreState) (wid : Int) : StoreState :=
  { st with tagRels := st.tagRels.filter (fun r => !decide (r.fst = wid)) }

/-- Modelled from the spec: `TagHelpers.createRelations` is not under
`src/`; per §4.4 it inserts one association row per requested tag id. -/
def createRelations (st : StoreState) (wid : Int) (tagIds : List String) : StoreState :=
  { st with tagRels := st.tagRels ++ tagIds.map (fun t => (wid, t)) }

/-- Lines 229-236: if a tag list was supplied and tagging is enabled,
remove all relations, then recreate them when the list is non-empty.
Returns the new store and the emitted events. -/
def syncTags (env : Env) (st : StoreState) (wid : Int) (tags : Option (List String)) :
    StoreState × List Event :=
  match tags with
  | none => (st, [])
  | some ts =>
    if env.tagsDisabled then (st, [])
    else
      let stA := removeRelations st wid
      if ts.isEmpty then (stA, [Event.tagRemoveRelations wid])
      else (createRelations stA wid ts,
        [Event.tagRemoveRelations wid, Event.tagCreateRelations wid ts])

/-- The reloaded record's eagerly loaded tag relation: the tag rows
associated with the workflow, in tag-table order (the store, not the
request, dictates read-back order — which is what makes the display
reorder below observable). -/
def loadTags (st : StoreState) (wid : Int) : List Tag :=
  st.tags.filter (fun t => decide ((wid, t.id) ∈ st.tagRels))

/-- Modelled from the spec: `TagHelpers.sortByRequestOrder` is not under
`src/`; per §4.4 it reorders an already-persisted tag set to follow the
caller-supplied id order, for display only. -/
def sortByRequestOrder (tagList : List Tag) (requestOrder : List String) : List Tag :=
  requestOrder.filterMap (fun tid => tagList.find? (fun t => decide (t.id = tid)))

/-- Lines 258-262: reorder for display only when both the reloaded tag
list and the requested tag list are non-empty
(`updatedWorkflow.tags?.length && tags?.length`). -/
def reorderTags (u0 : WorkflowEntity) (tags : Option (List String)) : WorkflowEntity :=
  match u0.tags, tags with
  | some tl, some ts =>
    if tl.isEmpty = false ∧ ts.isEmpty = false then
      { u0 with tags := some (sortByRequestOrder tl ts) }
    else u0
  | _, _ => u0

/-- The outcome of one `updateWorkflow` run: the JS return/throw value,
the ordered external-call trace, the final store, and the final states of
the two objects the function mutates in place (the caller's proposed
entity and, when the reload succeeded, the reloaded canonical record —
the compensation path mutates both and then rethrows). -/
structure UpdateOutcome where
  result : Except ApiError WorkflowEntity
  trace : List Event
  store : StoreState
  proposedFinal : WorkflowEntity
  canonicalFinal : Option WorkflowEntity
deriving DecidableEq

/-- Lines 267-286: if the canonical reloaded record is active, run the
Trigger Runtime `add` with mode `'update'` when the workflow was active
before the call, else `'activate'`; on failure force the active flag to
false on the proposed entity and the canonical record, persist the
entity (full, hash included), and rethrow the original error. -/
def reactivate (env : Env) (st2 : StoreState) (w2 : WorkflowEntity) (u1 : WorkflowEntity)
    (wid : Int) (wasActive : Bool) (tr2 : List Event) : UpdateOutcome :=
  if u1.active then
    let mode := if wasActive then "update" else "activate"
    match env.addResult with
    | Except.ok _ =>
      { result := Except.ok u1, trace := tr2 ++ [Event.runtimeAdd wid mode], store := st2,
        proposedFinal := w2, canonicalFinal := some u1 }
    | Except.error e =>
      let wC := { w2 with active := false }
      let pC := payloadFull wC
      { result := Except.error (ApiError.external e),
        trace := tr2 ++ [Event.runtimeAdd wid mode, Event.storeUpdate wid pC],
        store := storeUpdateWorkflow st2 wid pC,
        proposedFinal := wC,
        canonicalFinal := some { u1 with active := false } }
  else
    { result := Except.ok u1, trace := tr2, store := st2,
      proposedFinal := w2, canonicalFinal := some u1 }

/-- Lines 194-289, everything after the pre-deactivate step: normalize,
validate (fatal when the name is truthy and validation fails), persist
the hash-less payload, sync tags, reload the canonical record (absence ⇒
HTTP 400), reorder tags for display, then reactivate. -/
def afterDeactivate (env : Env) (st : StoreState) (workflow : WorkflowEntity)
    (wid : Int) (tags : Option (List String)) (wasActive : Bool)
    (tr0 : List Event) : UpdateOutcome :=
  let w2 := normalizeProposed env workflow
  if ¬(w2.name = "") ∧ env.validateOk = false then
    { result := Except.error ApiError.validation, trace := tr0, store := st,
      proposedFinal := w2, canonicalFinal := none }
  else
    let p1 := payloadNoHash w2
    let st1 := storeUpdateWorkflow st wid p1
    let st2 := (syncTags env st1 wid tags).1
    let trT := (syncTags env st1 wid tags).2
    let tr2 := tr0 ++ [Event.storeUpdate wid p1] ++ trT
    match findWorkflow st2 wid with
    | none =>
      { result := Except.error (ApiError.http (workflowNotFoundMsg wid) 400), trace := tr2,
        store := st2, proposedFinal := w2, canonicalFinal := none }
    | some wr =>
      let u0 := { wr with tags := if env.tagsDisabled then none else some (loadTags st2 wid) }
      let u1 := reorderTags u0 tags
      reactivate env st2 w2 u1 wid wasActive tr2

/-- `WorkflowsService.updateWorkflow`: authorize via the share lookup
(absence ⇒ HTTP 404 before any mutation), pre-deactivate when the
currently persisted record is active (a Trigger Runtime `remove` failure
propagates raw), then the remaining stages (`afterDeactivate`). -/
def updateWorkflow (env : Env) (st : StoreState) (user : User) (workflow : WorkflowEntity)
    (wid : Int) (tags : Option (List String)) : UpdateOutcome :=
  match findSharedForUpdate st user wid with
  | none =>
    { result := Except.error (ApiError.http (workflowNotFoundMsg wid) 404), trace := [],
      store := st, proposedFinal := workflow, canonicalFinal := none }
  | some (_s, w0) =>
    if w0.active then
      match env.removeResult with
      | Except.error e =>
        { result := Except.error (ApiError.external e), trace := [Event.runtimeRemove wid],
          store := st, proposedFinal := workflow, canonicalFinal := none }
      | Except.ok _ =>
        afterDeactivate env st workflow wid tags true [Event.runtimeRemove wid]
    else
      afterDeactivate env st workflow wid tags false []

def isRemoveEvent : Event → Bool
  | Event.runtimeRemove _ => true
  | _ => false

def isWriteEvent : Event → Bool
  | Event.storeUpdate _ _ => true
  | _ => false

def isAddEvent : Event → Bool
  | Event.runtimeAdd _ _ => true
  | _ => false

/-- Whether the last trace event is the compensation write: a store write
keyed by the given workflow id whose payload carries `active = false`. -/
def lastEventIsCompWrite (wid : Int) (tr : List Event) : Bool :=
  match tr.getLast? with
  | some (Event.storeUpdate i p) => decide (i = wid) && decide (p.active = false)
  | _ => false

/-- What the tag-sync stage leaves in the association table. -/
def syncedRels (rels : List (Int × String)) (wid : Int) (tags : Option (List String))
    (disabled : Bool) : List (Int × String) :=
  match tags with
  | none => rels
  | some ts =>
    if disabled then rels
    else (rels.filter (fun r => !decide (r.fst = wid))) ++ ts.map (fun t => (wid, t))

/-! ## Remaining definitions: conclusion predicates and concrete fixtures -/

/-- The first store write recorded in a trace, with its keying id. -/
def firstWrite? : List Event → Option (Int × UpdatePayload)
  | [] => none
  | Event.storeUpdate i p :: _ => some (i, p)
  | _ :: es => firstWrite? es

/-- Tags of the returned record, as shaped by the display reorder of
lines 258-262: reordered to the request order only when both lists are
non-empty. -/
def displayTags (tl : List Tag) (tags : Option (List String)) : List Tag :=
  match tags with
  | some ts => if tl.isEmpty = false ∧ ts.isEmpty = false then sortByRequestOrder tl ts else tl
  | none => tl

/-- No persisted settings value is a sentinel: none of the four string
keys holds `"DEFAULT"` and the execution timeout does not equal the
configured default. -/
def noSentinelSettings (d : Int) (s : WorkflowSettings) : Prop :=
  s.timezone ≠ some "DEFAULT" ∧ s.saveDataErrorExecution ≠ some "DEFAULT" ∧
    s.saveDataSuccessExecution ≠ some "DEFAULT" ∧ s.saveManualExecutions ≠ some "DEFAULT" ∧
    s.executionTimeout ≠ some d

/-- The compensation contract of lines 275-285 for an outcome: the
original activation error is rethrown unchanged, the proposed entity
object and the reloaded canonical record end with `active = false`,
exactly two store writes happened and the last trace event is the
compensating write of the forced-false flag, and the persisted row is
inactive. -/
def CompensationOutcome (wid : Int) (e : Nat) (out : UpdateOutcome) : Prop :=
  out.result = Except.error (ApiError.external e) ∧
    out.proposedFinal.active = false ∧
    out.canonicalFinal.map WorkflowEntity.active = some false ∧
    out.trace.countP isWriteEvent = 2 ∧
    lastEventIsCompWrite wid out.trace = true ∧
    (findWorkflow out.store wid).map WorkflowEntity.active = some false

/-- C2's conclusion: the unauthorized call fails with the fixed 404
`ResponseError` before any mutation — empty trace, untouched store,
untouched entity.  The outcome value depends only on the requested id,
so a store that truly lacks the workflow and one that merely lacks the
share produce identical outcomes (deliberate indistinguishability). -/
def C2Concl (env : Env) (st : StoreState) (user : User) (w : WorkflowEntity) (wid : Int)
    (tags : Option (List String)) : Prop :=
  updateWorkflow env st user w wid tags =
    { result := Except.error (ApiError.http (workflowNotFoundMsg wid) 404), trace := [],
      store := st, proposedFinal := w, canonicalFinal := none }

/-- C3's conclusion: the deactivate call count matches the persisted
active flag (exactly one when active, none when inactive), and when it
happens it is the very first external call of the run — in particular it
precedes every store write. -/
def C3Concl (env : Env) (st : StoreState) (user : User) (w : WorkflowEntity) (wid : Int)
    (tags : Option (List String)) (w0 : WorkflowEntity) : Prop :=
  ((updateWorkflow env st user w wid tags).trace.countP isRemoveEvent =
      if w0.active then 1 else 0) ∧
    (w0.active = true →
      (updateWorkflow env st user w wid tags).trace.head? = some (Event.runtimeRemove wid))

/-- C9's conclusion: the returned record's tags are the reloaded tags
shaped by `displayTags` (reordered to the request order exactly when
both lists are non-empty; absent when tagging is disabled), while the
persisted association rows are exactly what the tag-sync stage produced
— the display reorder is never written back. -/
def C9Concl (env : Env) (st : StoreState) (user : User) (w : WorkflowEntity) (wid : Int)
    (tags : Option (List String)) (u : WorkflowEntity) : Prop :=
  (env.tagsDisabled = true → u.tags = none) ∧
    (env.tagsDisabled = false →
      u.tags = some (displayTags (loadTags (updateWorkflow env st user w wid tags).store wid)
        tags)) ∧
    (updateWorkflow env st user w wid tags).store.tagRels =
      syncedRels st.tagRels wid tags env.tagsDisabled

/-- C10's (amended) conclusion: every store write of the run is keyed by
the workflow id and its payload is either the main write — the
normalized entity without the `hash` field — or the compensation write,
which passes the whole mutated entity, `hash` included; and the first
write is always the hash-less one. -/
def C10Concl (env : Env) (st : StoreState) (user : User) (w : WorkflowEntity) (wid : Int)
    (tags : Option (List String)) : Prop :=
  (∀ i p, Event.storeUpdate i p ∈ (updateWorkflow env st user w wid tags).trace →
      i = wid ∧ (p = payloadNoHash (normalizeProposed env w) ∨
        p = payloadFull { normalizeProposed env w with active := false })) ∧
    (∀ i p, firstWrite? (updateWorkflow env st user w wid tags).trace = some (i, p) →
      i = wid ∧ p = payloadNoHash (normalizeProposed env w) ∧ p.hash = none)

/-! ### Concrete fixtures (used by the witness theorems) -/

def userU1 : User := { id := "u1", globalRoleName := "member" }

def userU2 : User := { id := "u2", globalRoleName := "member" }

def userOwner : User := { id := "boss", globalRoleName := "owner" }

def shareU1 : SharedWorkflow := { userId := "u1", workflowId := 5, roleName := "editor" }

def shareOther : SharedWorkflow := { userId := "someoneelse", workflowId := 7, roleName := "editor" }

def tagA : Tag := { id := "A", name := "tagA" }

def tagB : Tag := { id := "B", name := "tagB" }

def wfActive : WorkflowEntity :=
  { id := 5, name := "old", active := true, nodes := 0, settings := none, hash := some "h0",
    updatedAt := 0, tags := none }

def wfInactive : WorkflowEntity :=
  { id := 5, name := "old", active := false, nodes := 0, settings := none, hash := some "h0",
    updatedAt := 0, tags := none }

def wfZero : WorkflowEntity :=
  { id := 0, name := "w0", active := true, nodes := 0, settings := none, hash := none,
    updatedAt := 0, tags := none }

def storeActive : StoreState :=
  { workflows := [wfActive], shares := [shareU1], tags := [], tagRels := [] }

def storeInactive : StoreState :=
  { workflows := [wfInactive], shares := [shareU1], tags := [], tagRels := [] }

def store9 : StoreState :=
  { workflows := [wfInactive], shares := [shareU1], tags := [tagB, tagA],
    tagRels := [(5, "B"), (5, "A")] }

def storeZero : StoreState :=
  { workflows := [wfZero], shares := [], tags := [], tagRels := [] }

def storeEmpty : StoreState := { workflows := [], shares := [], tags := [], tagRels := [] }

def envOk : Env :=
  { tagsDisabled := false, sharingEnabled := false, defaultTimeout := 300, now := 100,
    removeResult := Except.ok (), addResult := Except.ok (), validateOk := true }

def envAddFail : Env := { envOk with addResult := Except.error 7 }

def envAddFail9 : Env := { envOk with addResult := Except.error 9 }

def proposedFoo : WorkflowEntity :=
  { id := 5, name := "Foo", active := true, nodes := 1,
    settings := some ⟨some "DEFAULT", none, none, none, some 300⟩,
    hash := some "hC", updatedAt := 0, tags := none }

def proposed9 : WorkflowEntity :=
  { id := 5, name := "Foo", active := false, nodes := 2, settings := none, hash := none,
    updatedAt := 0, tags := none }

/-- What the run on `proposed9` returns (used by the C9 witness). -/
def c9u : WorkflowEntity :=
  { id := 5, name := "Foo", active := false, nodes := 2, settings := none, hash := some "h0",
    updatedAt := 100, tags := some [tagA, tagB] }

/-- The main write's payload for `proposedFoo` under `envOk`. -/
def pFoo : UpdatePayload :=
  { name := "Foo", active := true, nodes := 1,
    settings := some ⟨none, none, none, none, none⟩,
    updatedAt := 100, hash := none }

/-- The normalized settings of `proposedFoo` (used by the C6 witness). -/
def sC6 : WorkflowSettings :=
  { timezone := none, saveDataErrorExecution := none, saveDataSuccessExecution := none,
    saveManualExecutions := none, executionTimeout := none }

def f42 : QueryFilter := { id := some (FilterId.num 42), name := none, active := none }

/-- A schema-valid string filter id with a hex prefix: radix-less
`parseInt` reads it as `16`. -/
def fHex : QueryFilter := { id := some (FilterId.str "0x10"), name := none, active := none }

def fZero : QueryFilter := { id := some (FilterId.num 0), name := none, active := none }

def cFields : List (String × JsonPrim) := [("id", JsonPrim.bool true), ("evil", JsonPrim.str "x")]

/-! ## Helper lemmas -/


theorem find?_none_of_all {α : Type} (p : α → Bool) (l : List α)
    (h : l.all (fun a => !p a) = true) : l.find? p = none := by
  induction l with
  | nil => rfl
  | cons a t ih =>
    rw [List.all_cons, Bool.and_eq_true] at h
    rw [List.find?_cons_of_neg _ (by simpa using h.1)]
    exact ih h.2

theorem find?_map_update (l : List WorkflowEntity) (wid : Int) (p : UpdatePayload) :
    (l.map (fun w => if w.id = wid then applyPayload w p else w)).find?
        (fun wf => decide (wf.id = wid)) =
      (l.find? (fun wf => decide (wf.id = wid))).map (fun w => applyPayload w p) := by
  induction l with
  | nil => rfl
  | cons a t ih =>
    by_cases h : a.id = wid
    · rw [List.map_cons, if_pos h,
        List.find?_cons_of_pos _ (by simp [applyPayload, h]),
        List.find?_cons_of_pos _ (by simp [h])]
      rfl
    · rw [List.map_cons, if_neg h,
        List.find?_cons_of_neg _ (by simp [h]),
        List.find?_cons_of_neg _ (by simp [h])]
      exact ih

theorem findWorkflow_storeUpdate (st : StoreState) (wid : Int) (p : UpdatePayload) :
    findWorkflow (storeUpdateWorkflow st wid p) wid =
      (findWorkflow st wid).map (fun w => applyPayload w p) := by
  unfold findWorkflow storeUpdateWorkflow
  exact find?_map_update st.workflows wid p

theorem syncTags_workflows (env : Env) (st : StoreState) (wid : Int)
    (tags : Option (List String)) : (syncTags env st wid tags).1.workflows = st.workflows := by
  unfold syncTags
  cases tags with
  | none => rfl
  | some ts =>
    by_cases hd : env.tagsDisabled
    · simp [hd]
    · by_cases he : ts.isEmpty <;>
        simp [hd, he, removeRelations, createRelations]

theorem syncTags_tagsTable (env : Env) (st : StoreState) (wid : Int)
    (tags : Option (List String)) : (syncTags env st wid tags).1.tags = st.tags := by
  unfold syncTags
  cases tags with
  | none => rfl
  | some ts =>
    by_cases hd : env.tagsDisabled
    · simp [hd]
    · by_cases he : ts.isEmpty <;>
        simp [hd, he, removeRelations, createRelations]


theorem syncTags_tagRels (env : Env) (st : StoreState) (wid : Int)
    (tags : Option (List String)) :
    (syncTags env st wid tags).1.tagRels = syncedRels st.tagRels wid tags env.tagsDisabled := by
  unfold syncTags syncedRels
  cases tags with
  | none => rfl
  | some ts =>
    by_cases hd : env.tagsDisabled
    · simp [hd]
    · by_cases he : ts.isEmpty
      · simp [hd, he, removeRelations]
        rw [List.isEmpty_iff] at he
        simp [he]
      · simp [hd, he, removeRelations, createRelations]

theorem syncTags_countP (env : Env) (st : StoreState) (wid : Int)
    (tags : Option (List String)) (q : Event → Bool)
    (h1 : ∀ i, q (Event.tagRemoveRelations i) = false)
    (h2 : ∀ i ts, q (Event.tagCreateRelations i ts) = false) :
    (syncTags env st wid tags).2.countP q = 0 := by
  unfold syncTags
  cases tags with
  | none => rfl
  | some ts =>
    by_cases hd : env.tagsDisabled
    · simp [hd]
    · by_cases he : ts.isEmpty <;>
        simp [hd, he, List.countP_cons, h1, h2]

theorem countP_pos_of_mem {tr : List Event} {ev : Event} (h : ev ∈ tr) (q : Event → Bool)
    (hq : q ev = true) : tr.countP q ≠ 0 := by
  intro h0
  have := List.countP_pos_iff.mpr ⟨ev, h, hq⟩
  omega

theorem reactivate_countP (env : Env) (st2 : StoreState) (w2 u1 : WorkflowEntity) (wid : Int)
    (wa : Bool) (tr2 : List Event) (q : Event → Bool)
    (hAdd : ∀ i m, q (Event.runtimeAdd i m) = false)
    (hWrite : ∀ i p, q (Event.storeUpdate i p) = false) :
    (reactivate env st2 w2 u1 wid wa tr2).trace.countP q = tr2.countP q := by
  unfold reactivate
  by_cases h : u1.active
  · cases ha : env.addResult with
    | ok v => simp [h, List.countP_append, List.countP_cons, hAdd]
    | error e => simp [h, List.countP_append, List.countP_cons, hAdd, hWrite]
  · simp [h]

theorem afterDeactivate_countP (env : Env) (st : StoreState) (workflow : WorkflowEntity)
    (wid : Int) (tags : Option (List String)) (wa : Bool) (tr0 : List Event) (q : Event → Bool)
    (hAdd : ∀ i m, q (Event.runtimeAdd i m) = false)
    (hWrite : ∀ i p, q (Event.storeUpdate i p) = false)
    (hTagR : ∀ i, q (Event.tagRemoveRelations i) = false)
    (hTagC : ∀ i ts, q (Event.tagCreateRelations i ts) = false) :
    (afterDeactivate env st workflow wid tags wa tr0).trace.countP q = tr0.countP q := by
  unfold afterDeactivate
  by_cases hv : ¬(normalizeProposed env workflow).name = "" ∧ env.validateOk = false
  · simp [hv]
  · rw [if_neg hv]
    cases hf : findWorkflow (syncTags env
        (storeUpdateWorkflow st wid (payloadNoHash (normalizeProposed env workflow)))
        wid tags).1 wid with
    | none =>
      simp [hf, List.countP_append, List.countP_cons, hWrite,
        syncTags_countP _ _ _ _ _ hTagR hTagC]
    | some wr =>
      simp only [hf]
      rw [reactivate_countP _ _ _ _ _ _ _ _ hAdd hWrite]
      simp [List.countP_append, List.countP_cons, hWrite,
        syncTags_countP _ _ _ _ _ hTagR hTagC]

theorem reactivate_trace_prefix (env : Env) (st2 : StoreState) (w2 u1 : WorkflowEntity)
    (wid : Int) (wa : Bool) (tr2 : List Event) :
    ∃ tl, (reactivate env st2 w2 u1 wid wa tr2).trace = tr2 ++ tl := by
  unfold reactivate
  by_cases h : u1.active
  · cases ha : env.addResult with
    | ok v =>
      refine ⟨[Event.runtimeAdd wid (if wa then "update" else "activate")], ?_⟩
      simp [h]
    | error e =>
      refine ⟨[Event.runtimeAdd wid (if wa then "update" else "activate"),
        Event.storeUpdate wid (payloadFull { w2 with active := false })], ?_⟩
      simp [h]
  · exact ⟨[], by simp [h]⟩

theorem afterDeactivate_trace_prefix (env : Env) (st : StoreState) (workflow : WorkflowEntity)
    (wid : Int) (tags : Option (List String)) (wa : Bool) (tr0 : List Event) :
    ∃ tl, (afterDeactivate env st workflow wid tags wa tr0).trace = tr0 ++ tl := by
  unfold afterDeactivate
  by_cases hv : ¬(normalizeProposed env workflow).name = "" ∧ env.validateOk = false
  · exact ⟨[], by simp [hv]⟩
  · rw [if_neg hv]
    cases hf : findWorkflow (syncTags env
        (storeUpdateWorkflow st wid (payloadNoHash (normalizeProposed env workflow)))
        wid tags).1 wid with
    | none =>
      refine ⟨Event.storeUpdate wid (payloadNoHash (normalizeProposed env workflow)) ::
        (syncTags env
          (storeUpdateWorkflow st wid (payloadNoHash (normalizeProposed env workflow)))
          wid tags).2, ?_⟩
      simp [hf]
    | some wr =>
      simp only [hf]
      obtain ⟨tl2, htl2⟩ := reactivate_trace_prefix env _ _ _ wid wa
        (tr0 ++ [Event.storeUpdate wid (payloadNoHash (normalizeProposed env workflow))] ++
          (syncTags env
            (storeUpdateWorkflow st wid (payloadNoHash (normalizeProposed env workflow)))
            wid tags).2)
      refine ⟨Event.storeUpdate wid (payloadNoHash (normalizeProposed env workflow)) ::
        ((syncTags env
          (storeUpdateWorkflow st wid (payloadNoHash (normalizeProposed env workflow)))
          wid tags).2 ++ tl2), ?_⟩
      rw [htl2]
      simp


/-! ## Claim theorems -/

/-- C8: in `getSharing`, when `allowGlobalOwner` is true and the user's
global role is `"owner"`, the user-identity constraint is omitted from
the lookup, so any share row of the target workflow matches regardless
of which user it belongs to; otherwise the lookup additionally
constrains the user identity; and when nothing matches, the result is
the `none` value — absence is an ordinary return, not an exception. -/
theorem claim_C8 (st : StoreState) (user : User) (wid : Int) (rels : List String) :
    (user.globalRoleName = "owner" →
      (getSharingOptions user wid rels true).whereUserId = none ∧
      ∀ s : SharedWorkflow, s.workflowId = wid →
        shareMatches (getSharingOptions user wid rels true) s = true) ∧
    (∀ ago : Bool, (ago = false ∨ ¬(user.globalRoleName = "owner")) →
      (getSharingOptions user wid rels ago).whereUserId = some user.id ∧
      ∀ s : SharedWorkflow, shareMatches (getSharingOptions user wid rels ago) s =
        (decide (s.workflowId = wid) && decide (s.userId = user.id))) ∧
    (∀ ago : Bool, st.shares.all
        (fun s => !shareMatches (getSharingOptions user wid rels ago) s) = true →
      getSharing st user wid rels ago = none) := by
  refine ⟨?_, ?_, ?_⟩
  · intro h
    constructor
    · by_cases hrel : rels.isEmpty <;> simp [getSharingOptions, h, hrel]
    · intro s hs
      by_cases hrel : rels.isEmpty <;> simp [getSharingOptions, shareMatches, h, hrel, hs]
  · intro ago hno
    have hcond : (ago = false ∨ ¬(user.globalRoleName = "owner")) := hno
    constructor
    · by_cases hrel : rels.isEmpty <;>
        rcases hcond with h1 | h1 <;> simp [getSharingOptions, h1, hrel]
    · intro s
      by_cases hrel : rels.isEmpty <;>
        rcases hcond with h1 | h1 <;> simp [getSharingOptions, shareMatches, h1, hrel]
  · intro ago hall
    exact find?_none_of_all _ _ hall

theorem claim_C8_witness :
    (getSharingOptions userOwner 7 ["workflow"] true).whereUserId = none ∧
    shareMatches (getSharingOptions userOwner 7 ["workflow"] true) shareOther = true ∧
    (getSharingOptions userU1 7 ["workflow"] true).whereUserId = some userU1.id ∧
    getSharing storeEmpty userU1 7 ["workflow"] true = none := by
  obtain ⟨h1, _, _⟩ := claim_C8 storeEmpty userOwner 7 ["workflow"]
  obtain ⟨_, h2, h3⟩ := claim_C8 storeEmpty userU1 7 ["workflow"]
  exact ⟨(h1 (by decide)).1, (h1 (by decide)).2 shareOther (by decide),
    (h2 true (Or.inr (by decide))).1, h3 true (by decide)⟩

/-- C2: a user with no matching share row and no global-owner role gets
the fixed 404 `ResponseError` from `updateWorkflow`, whatever the
payload: no external call is made and the store is untouched.  Because
the outcome is a constant in everything but the requested id, a missing
workflow and a merely unshared workflow are indistinguishable to the
caller. -/
theorem claim_C2_authorization (env : Env) (st : StoreState) (user : User)
    (w : WorkflowEntity) (wid : Int) (tags : Option (List String))
    (hrole : decide (user.globalRoleName = "owner") = false)
    (hshare : st.shares.all
      (fun s => !(decide (s.workflowId = wid) && decide (s.userId = user.id))) = true) :
    C2Concl env st user w wid tags := by
  have hnone : st.shares.find? (fun s =>
      decide (s.workflowId = wid) &&
        (decide (user.globalRoleName = "owner") || decide (s.userId = user.id))) = none := by
    apply find?_none_of_all
    rw [List.all_eq_true] at hshare ⊢
    intro s hs
    have h1 := hshare s hs
    rw [hrole, Bool.false_or]
    exact h1
  have hfs : findSharedForUpdate st user wid = none := by
    unfold findSharedForUpdate
    rw [hnone]
  unfold C2Concl updateWorkflow
  rw [hfs]

theorem claim_C2_witness : C2Concl envOk storeActive userU2 proposedFoo 5 none :=
  claim_C2_authorization envOk storeActive userU2 proposedFoo 5 none (by decide) (by decide)

/-- C3: when the share lookup succeeds, the run issues exactly one
Trigger Runtime remove call when the currently persisted record is
active and none when it is inactive; when issued, the remove is the
first external call of the trace, hence it precedes the persistence
write of the mutated fields. -/
theorem claim_C3_predeactivation (env : Env) (st : StoreState) (user : User)
    (w : WorkflowEntity) (wid : Int) (tags : Option (List String))
    (sh : SharedWorkflow) (w0 : WorkflowEntity)
    (h : findSharedForUpdate st user wid = some (sh, w0)) :
    C3Concl env st user w wid tags w0 := by
  unfold C3Concl
  by_cases ha : w0.active
  · cases hr : env.removeResult with
    | error e =>
      have e1 : updateWorkflow env st user w wid tags =
          { result := Except.error (ApiError.external e), trace := [Event.runtimeRemove wid],
            store := st, proposedFinal := w, canonicalFinal := none } := by
        unfold updateWorkflow
        simp [h, ha, hr]
      rw [e1, ha]
      exact ⟨by simp [List.countP_cons, isRemoveEvent], fun _ => rfl⟩
    | ok u =>
      have e1 : updateWorkflow env st user w wid tags =
          afterDeactivate env st w wid tags true [Event.runtimeRemove wid] := by
        unfold updateWorkflow
        simp [h, ha, hr]
      rw [e1, ha]
      constructor
      · rw [afterDeactivate_countP env st w wid tags true [Event.runtimeRemove wid]
          isRemoveEvent (fun _ _ => rfl) (fun _ _ => rfl) (fun _ => rfl) (fun _ _ => rfl)]
        simp [List.countP_cons, isRemoveEvent]
      · intro _
        obtain ⟨tl, htl⟩ := afterDeactivate_trace_prefix env st w wid tags true
          [Event.runtimeRemove wid]
        rw [htl]
        rfl
  · rw [Bool.not_eq_true] at ha
    have e1 : updateWorkflow env st user w wid tags =
        afterDeactivate env st w wid tags false [] := by
      unfold updateWorkflow
      simp [h, ha]
    rw [e1, ha]
    constructor
    · rw [afterDeactivate_countP env st w wid tags false [] isRemoveEvent
        (fun _ _ => rfl) (fun _ _ => rfl) (fun _ => rfl) (fun _ _ => rfl)]
      rfl
    · intro hcontr
      exact absurd hcontr (by decide)

theorem claim_C3_witness : C3Concl envOk storeActive userU1 proposedFoo 5 none wfActive :=
  claim_C3_predeactivation envOk storeActive userU1 proposedFoo 5 none shareU1 wfActive
    (by decide)

theorem not_write_mem_syncTags (env : Env) (st : StoreState) (wid : Int)
    (tags : Option (List String)) (i : Int) (p : UpdatePayload)
    (hmem : Event.storeUpdate i p ∈ (syncTags env st wid tags).2) : False := by
  have h0 := syncTags_countP env st wid tags isWriteEvent (fun _ => rfl) (fun _ _ => rfl)
  exact countP_pos_of_mem hmem isWriteEvent rfl h0

theorem reactivate_write_mem (env : Env) (st2 : StoreState) (w2 u1 : WorkflowEntity)
    (wid : Int) (wa : Bool) (tr2 : List Event) (i : Int) (p : UpdatePayload)
    (hmem : Event.storeUpdate i p ∈ (reactivate env st2 w2 u1 wid wa tr2).trace) :
    Event.storeUpdate i p ∈ tr2 ∨
      (i = wid ∧ p = payloadFull { w2 with active := false }) := by
  unfold reactivate at hmem
  by_cases hact : u1.active
  · cases haR : env.addResult with
    | ok v =>
      simp [hact, haR, List.mem_append] at hmem
      exact Or.inl hmem
    | error e =>
      simp [hact, haR, List.mem_append] at hmem
      rcases hmem with h1 | ⟨h2, h3⟩
      · exact Or.inl h1
      · exact Or.inr ⟨h2, h3⟩
  · simp [hact] at hmem
    exact Or.inl hmem

theorem afterDeactivate_write_mem (env : Env) (st : StoreState) (workflow : WorkflowEntity)
    (wid : Int) (tags : Option (List String)) (wa : Bool) (tr0 : List Event)
    (i : Int) (p : UpdatePayload)
    (hmem : Event.storeUpdate i p ∈ (afterDeactivate env st workflow wid tags wa tr0).trace) :
    Event.storeUpdate i p ∈ tr0 ∨
      (i = wid ∧ (p = payloadNoHash (normalizeProposed env workflow) ∨
        p = payloadFull { normalizeProposed env workflow with active := false })) := by
  unfold afterDeactivate at hmem
  by_cases hv : ¬(normalizeProposed env workflow).name = "" ∧ env.validateOk = false
  · rw [if_pos hv] at hmem
    exact Or.inl hmem
  · rw [if_neg hv] at hmem
    cases hf : findWorkflow (syncTags env
        (storeUpdateWorkflow st wid (payloadNoHash (normalizeProposed env workflow)))
        wid tags).1 wid with
    | none =>
      simp only [hf, List.append_assoc, List.mem_append, List.mem_cons,
        List.not_mem_nil, or_false] at hmem
      rcases hmem with h1 | h2 | h3
      · exact Or.inl h1
      · rw [Event.storeUpdate.injEq] at h2
        exact Or.inr ⟨h2.1, Or.inl h2.2⟩
      · exact absurd h3 (fun hh => not_write_mem_syncTags env _ wid tags i p hh)
    | some wr =>
      simp only [hf] at hmem
      rcases reactivate_write_mem env _ _ _ wid wa _ i p hmem with h1 | h2
      · simp only [List.append_assoc, List.mem_append, List.mem_cons,
          List.not_mem_nil, or_false] at h1
        rcases h1 with g1 | g2 | g3
        · exact Or.inl g1
        · rw [Event.storeUpdate.injEq] at g2
          exact Or.inr ⟨g2.1, Or.inl g2.2⟩
        · exact absurd g3 (fun hh => not_write_mem_syncTags env _ wid tags i p hh)
      · exact Or.inr ⟨h2.1, Or.inr h2.2⟩

theorem updateWorkflow_write_mem (env : Env) (st : StoreState) (user : User)
    (w : WorkflowEntity) (wid : Int) (tags : Option (List String)) (i : Int) (p : UpdatePayload)
    (hmem : Event.storeUpdate i p ∈ (updateWorkflow env st user w wid tags).trace) :
    i = wid ∧ (p = payloadNoHash (normalizeProposed env w) ∨
      p = payloadFull { normalizeProposed env w with active := false }) := by
  unfold updateWorkflow at hmem
  cases hfs : findSharedForUpdate st user wid with
  | none => simp [hfs] at hmem
  | some pr =>
    obtain ⟨sh, w0⟩ := pr
    simp only [hfs] at hmem
    by_cases ha : w0.active
    · cases hr : env.removeResult with
      | error e => simp [ha, hr] at hmem
      | ok u =>
        simp only [ha, if_true] at hmem
        rw [hr] at hmem
        rcases afterDeactivate_write_mem env st w wid tags true [Event.runtimeRemove wid]
            i p hmem with h1 | h2
        · simp at h1
        · exact h2
    · rw [Bool.not_eq_true] at ha
      simp only [ha, Bool.false_eq_true, if_false] at hmem
      rcases afterDeactivate_write_mem env st w wid tags false [] i p hmem with h1 | h2
      · simp at h1
      · exact h2

theorem normalizeProposed_settings (env : Env) (w : WorkflowEntity) :
    (normalizeProposed env w).settings =
      w.settings.map (normalizeSettings env.defaultTimeout) := by
  by_cases h : w.name = "" <;> simp [normalizeProposed, h]

theorem normalizeSettings_noSentinel (d : Int) (s : WorkflowSettings) :
    noSentinelSettings d (normalizeSettings d s) := by
  unfold noSentinelSettings normalizeSettings
  refine ⟨?_, ?_, ?_, ?_, ?_⟩ <;> dsimp only <;> split <;> simp_all

/-- C6: every settings object written to the store by an `updateWorkflow`
run is sentinel-free: none of the four string keys holds `"DEFAULT"` and
the execution timeout never equals the configured default — the
normalization of lines 194-218 runs before both the main write and the
compensation write. -/
theorem claim_C6_no_sentinel (env : Env) (st : StoreState) (user : User)
    (w : WorkflowEntity) (wid : Int) (tags : Option (List String)) (i : Int)
    (p : UpdatePayload) (s : WorkflowSettings)
    (hmem : Event.storeUpdate i p ∈ (updateWorkflow env st user w wid tags).trace)
    (hs : p.settings = some s) :
    noSentinelSettings env.defaultTimeout s := by
  obtain ⟨-, hp⟩ := updateWorkflow_write_mem env st user w wid tags i p hmem
  have hset : p.settings = (normalizeProposed env w).settings := by
    rcases hp with rfl | rfl <;> rfl
  rw [hset, normalizeProposed_settings] at hs
  cases hw : w.settings with
  | none => rw [hw] at hs; simp at hs
  | some s0 =>
    rw [hw] at hs
    simp only [Option.map_some'] at hs
    obtain rfl : normalizeSettings env.defaultTimeout s0 = s := Option.some.inj hs
    exact normalizeSettings_noSentinel env.defaultTimeout s0

theorem claim_C6_witness :
    (Event.storeUpdate 5 pFoo ∈ (updateWorkflow envOk storeInactive userU1 proposedFoo 5
      none).trace) ∧
    noSentinelSettings envOk.defaultTimeout sC6 :=
  ⟨by decide, claim_C6_no_sentinel envOk storeInactive userU1 proposedFoo 5 none 5 pFoo sC6
    (by decide) (by decide)⟩

theorem firstWrite?_cons_other (a : Event) (es : List Event) (h : isWriteEvent a = false) :
    firstWrite? (a :: es) = firstWrite? es := by
  cases a with
  | storeUpdate i p => exact absurd h (by simp [isWriteEvent])
  | runtimeRemove i => rfl
  | tagRemoveRelations i => rfl
  | tagCreateRelations i ts => rfl
  | runtimeAdd i m => rfl

theorem firstWrite?_append (l1 l2 : List Event) (h : l1.countP isWriteEvent = 0) :
    firstWrite? (l1 ++ l2) = firstWrite? l2 := by
  induction l1 with
  | nil => rfl
  | cons a t ih =>
    rw [List.countP_cons] at h
    by_cases hh : isWriteEvent a
    · rw [hh] at h
      simp at h
    · rw [Bool.not_eq_true] at hh
      rw [hh] at h
      simp at h
      rw [List.cons_append, firstWrite?_cons_other a _ hh]
      refine ih (List.countP_eq_zero.mpr ?_)
      intro a ha
      rw [h a ha]
      exact Bool.false_ne_true

theorem firstWrite?_none (l : List Event) (h : l.countP isWriteEvent = 0) :
    firstWrite? l = none := by
  have h2 := firstWrite?_append l [] h
  simpa using h2

theorem afterDeactivate_firstWrite (env : Env) (st : StoreState) (workflow : WorkflowEntity)
    (wid : Int) (tags : Option (List String)) (wa : Bool) (tr0 : List Event)
    (h0 : tr0.countP isWriteEvent = 0) :
    firstWrite? (afterDeactivate env st workflow wid tags wa tr0).trace = none ∨
      firstWrite? (afterDeactivate env st workflow wid tags wa tr0).trace =
        some (wid, payloadNoHash (normalizeProposed env workflow)) := by
  unfold afterDeactivate
  by_cases hv : ¬(normalizeProposed env workflow).name = "" ∧ env.validateOk = false
  · rw [if_pos hv]
    exact Or.inl (firstWrite?_none tr0 h0)
  · rw [if_neg hv]
    cases hf : findWorkflow (syncTags env
        (storeUpdateWorkflow st wid (payloadNoHash (normalizeProposed env workflow)))
        wid tags).1 wid with
    | none =>
      simp only [hf]
      right
      rw [List.append_assoc, firstWrite?_append _ _ h0]
      rfl
    | some wr =>
      simp only [hf]
      right
      obtain ⟨tl2, htl2⟩ := reactivate_trace_prefix env _ _ _ wid wa
        (tr0 ++ [Event.storeUpdate wid (payloadNoHash (normalizeProposed env workflow))] ++
          (syncTags env
            (storeUpdateWorkflow st wid (payloadNoHash (normalizeProposed env workflow)))
            wid tags).2)
      rw [htl2, List.append_assoc, List.append_assoc, firstWrite?_append _ _ h0]
      rfl

/-- C10 (amended): every store write of an `updateWorkflow` run is keyed
by the workflow id; the main write's payload is the normalized entity
*without* the hash field (the `const { hash, ...rest }` destructuring of
line 225), and the first write is always that hash-less one — but the
compensation write of line 278 passes the whole mutated entity, hash
included, so it is not true that no write of `updateWorkflow` persists
the hash field. -/
theorem claim_C10_amended (env : Env) (st : StoreState) (user : User) (w : WorkflowEntity)
    (wid : Int) (tags : Option (List String)) : C10Concl env st user w wid tags := by
  constructor
  · intro i p hmem
    exact updateWorkflow_write_mem env st user w wid tags i p hmem
  · intro i p hfw
    unfold updateWorkflow at hfw
    cases hfs : findSharedForUpdate st user wid with
    | none => simp [hfs, firstWrite?] at hfw
    | some pr =>
      obtain ⟨sh, w0⟩ := pr
      simp only [hfs] at hfw
      have key : firstWrite? (afterDeactivate env st w wid tags true
            [Event.runtimeRemove wid]).trace = some (i, p) ∨
          firstWrite? (afterDeactivate env st w wid tags false []).trace = some (i, p) := by
        by_cases ha : w0.active
        · cases hr : env.removeResult with
          | error e => simp [ha, hr, firstWrite?] at hfw
          | ok u =>
            rw [hr] at hfw
            simp only [ha, if_true] at hfw
            exact Or.inl hfw
        · rw [Bool.not_eq_true] at ha
          simp only [ha, Bool.false_eq_true, if_false] at hfw
          exact Or.inr hfw
      have conclude : ∀ wa tr0, tr0.countP isWriteEvent = 0 →
          firstWrite? (afterDeactivate env st w wid tags wa tr0).trace = some (i, p) →
          i = wid ∧ p = payloadNoHash (normalizeProposed env w) ∧ p.hash = none := by
        intro wa tr0 h0 hfw2
        rcases afterDeactivate_firstWrite env st w wid tags wa tr0 h0 with hN | hS
        · rw [hN] at hfw2
          exact absurd hfw2 (by simp)
        · rw [hS] at hfw2
          have heq := Option.some.inj hfw2
          rw [Prod.mk.injEq] at heq
          obtain ⟨h1, h2⟩ := heq
          subst h1
          subst h2
          exact ⟨rfl, rfl, rfl⟩
      rcases key with k1 | k2
      · exact conclude true [Event.runtimeRemove wid] rfl k1
      · exact conclude false [] rfl k2

/-- C10 counterexample to the claim as stated: a run whose reactivation
fails performs the compensation write with the whole entity, so the
persisted hash changes from the stored `"h0"` to the client-supplied
`"hC"` — a write of `updateWorkflow` did persist the hash field. -/
theorem claim_C10_counterexample :
    (findWorkflow (updateWorkflow envAddFail9 storeInactive userU1 proposedFoo 5 none).store
        5).map WorkflowEntity.hash = some (some "hC") ∧
    (findWorkflow storeInactive 5).map WorkflowEntity.hash = some (some "h0") := by
  constructor
  · decide
  · decide

theorem claim_C10_witness :
    (firstWrite? (updateWorkflow envOk storeInactive userU1 proposedFoo 5 none).trace =
      some (5, pFoo)) ∧
    ((5 : Int) = 5 ∧ pFoo = payloadNoHash (normalizeProposed envOk proposedFoo) ∧
      pFoo.hash = none) :=
  ⟨by decide,
    (claim_C10_amended envOk storeInactive userU1 proposedFoo 5 none).2 5 pFoo (by decide)⟩

theorem not_add_mem_syncTags (env : Env) (st : StoreState) (wid : Int)
    (tags : Option (List String)) (i : Int) (m : String)
    (hmem : Event.runtimeAdd i m ∈ (syncTags env st wid tags).2) : False := by
  have h0 := syncTags_countP env st wid tags isAddEvent (fun _ => rfl) (fun _ _ => rfl)
  exact countP_pos_of_mem hmem isAddEvent rfl h0

theorem reactivate_add_error (env : Env) (st2 : StoreState) (w2 u1 : WorkflowEntity)
    (wid : Int) (wa : Bool) (tr2 : List Event) (e : Nat)
    (hadd : env.addResult = Except.error e) (hact : u1.active = true) :
    reactivate env st2 w2 u1 wid wa tr2 =
      { result := Except.error (ApiError.external e),
        trace := tr2 ++ [Event.runtimeAdd wid (if wa then "update" else "activate"),
          Event.storeUpdate wid (payloadFull { w2 with active := false })],
        store := storeUpdateWorkflow st2 wid (payloadFull { w2 with active := false }),
        proposedFinal := { w2 with active := false },
        canonicalFinal := some { u1 with active := false } } := by
  unfold reactivate
  simp [hact, hadd]

theorem reactivate_compensation (env : Env) (st2 : StoreState) (w2 u1 : WorkflowEntity)
    (wid : Int) (wa : Bool) (tr2 : List Event) (e : Nat) (i : Int) (m : String)
    (wr : WorkflowEntity)
    (hadd : env.addResult = Except.error e)
    (h2A : tr2.countP isAddEvent = 0)
    (h2W : tr2.countP isWriteEvent = 1)
    (hfind : findWorkflow st2 wid = some wr)
    (hmem : Event.runtimeAdd i m ∈ (reactivate env st2 w2 u1 wid wa tr2).trace) :
    CompensationOutcome wid e (reactivate env st2 w2 u1 wid wa tr2) := by
  by_cases hact : u1.active
  · rw [reactivate_add_error env st2 w2 u1 wid wa tr2 e hadd hact]
    unfold CompensationOutcome
    refine ⟨rfl, rfl, rfl, ?_, ?_, ?_⟩
    · simp [List.countP_append, List.countP_cons, h2W, isWriteEvent]
    · unfold lastEventIsCompWrite
      rw [show tr2 ++ [Event.runtimeAdd wid (if wa then "update" else "activate"),
            Event.storeUpdate wid (payloadFull { w2 with active := false })] =
          (tr2 ++ [Event.runtimeAdd wid (if wa then "update" else "activate")]) ++
            [Event.storeUpdate wid (payloadFull { w2 with active := false })] by simp,
        List.getLast?_concat]
      simp [payloadFull]
    · rw [findWorkflow_storeUpdate, hfind]
      rfl
  · unfold reactivate at hmem
    simp [hact] at hmem
    exact absurd h2A (countP_pos_of_mem hmem isAddEvent rfl)

theorem afterDeactivate_compensation (env : Env) (st : StoreState) (workflow : WorkflowEntity)
    (wid : Int) (tags : Option (List String)) (wa : Bool) (tr0 : List Event) (e : Nat)
    (i : Int) (m : String)
    (hadd : env.addResult = Except.error e)
    (h0A : tr0.countP isAddEvent = 0)
    (h0W : tr0.countP isWriteEvent = 0)
    (hmem : Event.runtimeAdd i m ∈ (afterDeactivate env st workflow wid tags wa tr0).trace) :
    CompensationOutcome wid e (afterDeactivate env st workflow wid tags wa tr0) := by
  unfold afterDeactivate at hmem ⊢
  by_cases hv : ¬(normalizeProposed env workflow).name = "" ∧ env.validateOk = false
  · rw [if_pos hv] at hmem
    exact absurd h0A (countP_pos_of_mem hmem isAddEvent rfl)
  · rw [if_neg hv] at hmem ⊢
    cases hf : findWorkflow (syncTags env (storeUpdateWorkflow st wid
        (payloadNoHash (normalizeProposed env workflow))) wid tags).1 wid with
    | none =>
      simp only [hf] at hmem
      rcases List.mem_append.mp hmem with h1 | h2
      · rcases List.mem_append.mp h1 with g1 | g2
        · exact absurd h0A (countP_pos_of_mem g1 isAddEvent rfl)
        · simp at g2
      · exact absurd h2 (fun hh => not_add_mem_syncTags env _ wid tags i m hh)
    | some wr =>
      simp only [hf] at hmem ⊢
      refine reactivate_compensation env _ _ _ wid wa _ e i m wr hadd ?_ ?_ hf hmem
      · simp [List.countP_append, List.countP_cons, h0A, isAddEvent,
          syncTags_countP env _ wid tags isAddEvent (fun _ => rfl) (fun _ _ => rfl)]
      · simp [List.countP_append, List.countP_cons, h0W, isWriteEvent,
          syncTags_countP env _ wid tags isWriteEvent (fun _ => rfl) (fun _ _ => rfl)]

/-- C1: whenever the Trigger Runtime add-call of the reactivation stage
is reached (a `runtimeAdd` event is in the trace) and the runtime call
fails, `updateWorkflow` rethrows that very error, forces the active flag
to false on the proposed entity object and on the reloaded canonical
record, performs exactly one further store write — the run's second —
whose payload carries `active = false`, and leaves the persisted row
inactive. -/
theorem claim_C1_compensation (env : Env) (st : StoreState) (user : User)
    (w : WorkflowEntity) (wid : Int) (tags : Option (List String)) (e : Nat) (i : Int)
    (m : String)
    (hadd : env.addResult = Except.error e)
    (hmem : Event.runtimeAdd i m ∈ (updateWorkflow env st user w wid tags).trace) :
    CompensationOutcome wid e (updateWorkflow env st user w wid tags) := by
  unfold updateWorkflow at hmem ⊢
  cases hfs : findSharedForUpdate st user wid with
  | none => simp [hfs] at hmem
  | some pr =>
    obtain ⟨sh, w0⟩ := pr
    simp only [hfs] at hmem ⊢
    by_cases ha : w0.active
    · cases hr : env.removeResult with
      | error e2 => simp [ha, hr] at hmem
      | ok v =>
        simp only [ha, if_true] at hmem ⊢
        rw [hr] at hmem
        exact afterDeactivate_compensation env st w wid tags true [Event.runtimeRemove wid]
          e i m hadd rfl rfl hmem
    · rw [Bool.not_eq_true] at ha
      simp only [ha, Bool.false_eq_true, if_false] at hmem ⊢
      exact afterDeactivate_compensation env st w wid tags false [] e i m hadd rfl rfl hmem

theorem claim_C1_witness :
    (Event.runtimeAdd 5 "activate" ∈
      (updateWorkflow envAddFail storeInactive userU1 proposedFoo 5 none).trace) ∧
    CompensationOutcome 5 7 (updateWorkflow envAddFail storeInactive userU1 proposedFoo 5
      none) :=
  ⟨by decide, claim_C1_compensation envAddFail storeInactive userU1 proposedFoo 5 none 7 5
    "activate" (by decide) (by decide)⟩

theorem reactivate_ok (env : Env) (st2 : StoreState) (w2 u1 : WorkflowEntity) (wid : Int)
    (wa : Bool) (tr2 : List Event) (u : WorkflowEntity)
    (hok : (reactivate env st2 w2 u1 wid wa tr2).result = Except.ok u) :
    u = u1 ∧ (reactivate env st2 w2 u1 wid wa tr2).store = st2 := by
  by_cases hact : u1.active
  · cases haR : env.addResult with
    | ok v =>
      have e1 : reactivate env st2 w2 u1 wid wa tr2 =
          { result := Except.ok u1,
            trace := tr2 ++ [Event.runtimeAdd wid (if wa then "update" else "activate")],
            store := st2, proposedFinal := w2, canonicalFinal := some u1 } := by
        unfold reactivate
        simp [hact, haR]
      rw [e1] at hok ⊢
      exact ⟨(Except.ok.inj hok).symm, rfl⟩
    | error e =>
      rw [reactivate_add_error env st2 w2 u1 wid wa tr2 e haR hact] at hok
      exact Except.noConfusion hok
  · rw [Bool.not_eq_true] at hact
    have e1 : reactivate env st2 w2 u1 wid wa tr2 =
        { result := Except.ok u1, trace := tr2, store := st2, proposedFinal := w2,
          canonicalFinal := some u1 } := by
      unfold reactivate
      simp [hact]
    rw [e1] at hok ⊢
    exact ⟨(Except.ok.inj hok).symm, rfl⟩

theorem afterDeactivate_ok (env : Env) (st : StoreState) (workflow : WorkflowEntity)
    (wid : Int) (tags : Option (List String)) (wa : Bool) (tr0 : List Event)
    (u : WorkflowEntity)
    (hok : (afterDeactivate env st workflow wid tags wa tr0).result = Except.ok u) :
    (env.tagsDisabled = true → u.tags = none) ∧
      (env.tagsDisabled = false →
        u.tags = some (displayTags
          (loadTags (afterDeactivate env st workflow wid tags wa tr0).store wid) tags)) ∧
      (afterDeactivate env st workflow wid tags wa tr0).store.tagRels =
        syncedRels st.tagRels wid tags env.tagsDisabled := by
  unfold afterDeactivate at hok ⊢
  by_cases hv : ¬(normalizeProposed env workflow).name = "" ∧ env.validateOk = false
  · rw [if_pos hv] at hok
    exact Except.noConfusion hok
  · rw [if_neg hv] at hok ⊢
    cases hf : findWorkflow (syncTags env (storeUpdateWorkflow st wid
        (payloadNoHash (normalizeProposed env workflow))) wid tags).1 wid with
    | none =>
      simp only [hf] at hok
      exact Except.noConfusion hok
    | some wr =>
      simp only [hf] at hok ⊢
      obtain ⟨hu, hstore⟩ := reactivate_ok env _ _ _ wid wa _ u hok
      subst hu
      rw [hstore]
      refine ⟨?_, ?_, ?_⟩
      · intro h
        simp only [h, if_true]
        cases tags with
        | none => simp [reorderTags]
        | some ts => simp [reorderTags]
      · intro h
        simp only [h, Bool.false_eq_true, if_false]
        cases tags with
        | none => simp [reorderTags, displayTags]
        | some ts =>
          simp [reorderTags, displayTags]
          split <;> rfl
      · rw [syncTags_tagRels]
        rfl

/-- C9: on every successful `updateWorkflow` run, the returned record's
tag sequence is the reloaded tag list reordered to the caller-requested
order exactly when both lists are non-empty (lines 258-262), and the
persisted association rows are exactly what the tag-sync stage left —
the display reordering is never written back to storage. -/
theorem claim_C9_tag_reorder (env : Env) (st : StoreState) (user : User) (w : WorkflowEntity)
    (wid : Int) (tags : Option (List String)) (u : WorkflowEntity)
    (hok : (updateWorkflow env st user w wid tags).result = Except.ok u) :
    C9Concl env st user w wid tags u := by
  unfold C9Concl
  unfold updateWorkflow at hok ⊢
  cases hfs : findSharedForUpdate st user wid with
  | none =>
    rw [hfs] at hok
    exact Except.noConfusion hok
  | some pr =>
    obtain ⟨sh, w0⟩ := pr
    simp only [hfs] at hok ⊢
    by_cases ha : w0.active
    · cases hr : env.removeResult with
      | error e2 =>
        simp only [ha, if_true] at hok
        rw [hr] at hok
        exact Except.noConfusion hok
      | ok v =>
        simp only [ha, if_true] at hok ⊢
        rw [hr] at hok
        exact afterDeactivate_ok env st w wid tags true [Event.runtimeRemove wid] u hok
    · rw [Bool.not_eq_true] at ha
      simp only [ha, Bool.false_eq_true, if_false] at hok ⊢
      exact afterDeactivate_ok env st w wid tags false [] u hok

theorem claim_C9_witness :
    ((updateWorkflow envOk store9 userU1 proposed9 5 (some ["A", "B"])).result =
      Except.ok c9u) ∧
    C9Concl envOk store9 userU1 proposed9 5 (some ["A", "B"]) c9u :=
  ⟨by decide, claim_C9_tag_reorder envOk store9 userU1 proposed9 5 (some ["A", "B"]) c9u
    (by decide)⟩

theorem pruneFilter_idem (fields : List (String × JsonPrim)) :
    pruneFilter (pruneFilter fields) = pruneFilter fields := by
  unfold pruneFilter
  induction fields with
  | nil => rfl
  | cons kv t ih =>
    by_cases h : kv.fst ∈ allowedKeys
    · simp [List.filter_cons, h, ih]
    · simp [List.filter_cons, h, ih]

theorem pruneFilter_all_allowed (fields : List (String × JsonPrim)) :
    (pruneFilter fields).all (fun kv => decide (kv.fst ∈ allowedKeys)) = true := by
  unfold pruneFilter
  induction fields with
  | nil => rfl
  | cons kv t ih =>
    by_cases h : kv.fst ∈ allowedKeys
    · simp [List.filter_cons, h, ih]
    · simp [List.filter_cons, h, ih]

/-- C4 (amended): the pre-query safeguard of lines 104-110 returns the
empty list whenever the filter id's radix-less `parseInt` is truthy (a
number other than `0`, not `NaN`; `0x`-prefixed string ids parse as
hexadecimal) and not among the caller's shared ids.  (When `parseInt`
yields `0` or `NaN` the safeguard is skipped and the query is issued
with the filter id alone — see the counterexample and C5.) -/
theorem claim_C4_amended (st : StoreState) (user : User) (sharedIds : List Int)
    (v : JsonVal) (f : QueryFilter) (fid : FilterId) (n : Int)
    (hv : validateFilter v = some f) (hid : f.id = some fid)
    (hparse : parseIntJs fid.toStr = some n) (hn : decide (n = 0) = false)
    (hnotin : decide (n ∈ sharedIds) = false) :
    (getMany st user sharedIds (some (Except.ok v))).1 = Except.ok [] := by
  have hb : filterBlocked sharedIds (validateFilter v) = true := by
    rw [hv]
    simp [filterBlocked, hid, hparse, hn, hnotin]
  unfold getMany
  by_cases he : sharedIds.isEmpty
  · simp [he]
  · rw [if_neg he]
    show (getManyWithFilter st sharedIds (validateFilter v)).1 = Except.ok []
    unfold getManyWithFilter
    rw [hb]
    rfl

/-- C4 counterexample to the claim as stated: the filter id `0` is not
in the caller's shared-id set `[1]`, yet `parseInt` yields the falsy `0`,
the safeguard is skipped, and the issued query — whose id condition is
the filter id, not the shared-id restriction — returns the workflow with
id `0`. -/
theorem claim_C4_counterexample :
    decide ((0 : Int) ∈ [(1 : Int)]) = false ∧
    (getMany storeZero userU1 [1]
        (some (Except.ok (JsonVal.obj [("id", JsonPrim.num 0)])))).1 =
      Except.ok [{ id := "0", name := "w0", active := true, updatedAt := 0 }] := by
  constructor
  · decide
  · decide

theorem claim_C4_witness :
    (getMany storeZero userU1 [1]
        (some (Except.ok (JsonVal.obj [("id", JsonPrim.str "0x10")])))).1 = Except.ok [] :=
  claim_C4_amended storeZero userU1 [1] (JsonVal.obj [("id", JsonPrim.str "0x10")]) fHex
    (FilterId.str "0x10") 16 (by decide) (by decide) (by decide) (by decide) (by decide)

/-- C5: when the validated filter carries an id, the issued query's id
condition is the filter id — the `...filter` spread of lines 126-131
replaces the `In(sharedWorkflowIds)` condition — and when `parseInt` of
that id is `0` or `NaN` (so the line 104-110 safeguard is skipped, by
JS truthiness), the query is actually issued with that unrestricted id
condition. -/
theorem claim_C5_id_replaces_in (st : StoreState) (user : User) (sharedIds : List Int)
    (v : JsonVal) (f : QueryFilter) (fid : FilterId)
    (hv : validateFilter v = some f) (hid : f.id = some fid)
    (hne : sharedIds.isEmpty = false)
    (hfalsy : (match parseIntJs fid.toStr with
               | none => true
               | some n => decide (n = 0)) = true) :
    (getMany st user sharedIds (some (Except.ok v))).2 =
      some (buildWhere sharedIds (some f)) ∧
    (buildWhere sharedIds (some f)).idCond = IdCond.eqFilter fid := by
  have hb : filterBlocked sharedIds (validateFilter v) = false := by
    rw [hv]
    simp only [filterBlocked, hid]
    cases hp : parseIntJs fid.toStr with
    | none => rfl
    | some n =>
      rw [hp] at hfalsy
      have h0 : decide (n = 0) = true := hfalsy
      show (!decide (n = 0) && !decide (n ∈ sharedIds)) = false
      rw [h0]
      rfl
  constructor
  · unfold getMany
    rw [if_neg (by rw [hne]; exact Bool.false_ne_true)]
    show (getManyWithFilter st sharedIds (validateFilter v)).2 =
      some (buildWhere sharedIds (some f))
    unfold getManyWithFilter
    rw [hb, hv]
    rfl
  · simp [buildWhere, hid]

theorem claim_C5_witness :
    ((getMany storeZero userU1 [1]
        (some (Except.ok (JsonVal.obj [("id", JsonPrim.num 0)])))).2 =
      some (buildWhere [1] (some fZero))) ∧
    (buildWhere [1] (some fZero)).idCond = IdCond.eqFilter (FilterId.num 0) :=
  claim_C5_id_replaces_in storeZero userU1 [1] (JsonVal.obj [("id", JsonPrim.num 0)]) fZero
    (FilterId.num 0) (by decide) (by decide) (by decide) (by decide)

/-- C7: (a) validating a decoded filter object is the same as validating
its pruned form, and the pruned form carries only allow-listed keys —
keys outside `{id, name, active}` are dropped before schema validation
(lines 83-85); (b) an object that is schema-invalid after pruning makes
`getMany` behave exactly as with no filter at all (unfiltered listing,
no error); (c) unparseable raw filter text is fatal: `getMany` fails
with the HTTP 500 `ResponseError` (lines 90-100). -/
theorem claim_C7_filter_validation (st : StoreState) (user : User) (sharedIds : List Int)
    (fields : List (String × JsonPrim)) :
    (validateFilter (JsonVal.obj fields) =
      validateFilter (JsonVal.obj (pruneFilter fields))) ∧
    (pruneFilter fields).all (fun kv => decide (kv.fst ∈ allowedKeys)) = true ∧
    (schemaValid (JsonVal.obj (pruneFilter fields)) = false →
      getMany st user sharedIds (some (Except.ok (JsonVal.obj fields))) =
        getMany st user sharedIds none) ∧
    (sharedIds.isEmpty = false →
      getMany st user sharedIds (some (Except.error ())) =
        (Except.error (ApiError.http filterParseMsg 500), none)) := by
  refine ⟨?_, pruneFilter_all_allowed fields, ?_, ?_⟩
  · unfold validateFilter
    simp only [jsTruthy]
    rw [pruneFilter_idem]
  · intro hbad
    have hnone : validateFilter (JsonVal.obj fields) = none := by
      unfold validateFilter
      simp only [jsTruthy]
      rw [hbad]
      rfl
    unfold getMany
    by_cases he : sharedIds.isEmpty
    · simp [he]
    · rw [if_neg he, if_neg he]
      show getManyWithFilter st sharedIds (validateFilter (JsonVal.obj fields)) =
        getManyWithFilter st sharedIds none
      rw [hnone]
  · intro hne
    unfold getMany
    rw [if_neg (by rw [hne]; exact Bool.false_ne_true)]

theorem claim_C7_witness :
    (validateFilter (JsonVal.obj cFields) =
      validateFilter (JsonVal.obj (pruneFilter cFields))) ∧
    (pruneFilter cFields).all (fun kv => decide (kv.fst ∈ allowedKeys)) = true ∧
    getMany storeZero userU1 [1] (some (Except.ok (JsonVal.obj cFields))) =
      getMany storeZero userU1 [1] none ∧
    getMany storeZero userU1 [1] (some (Except.error ())) =
      (Except.error (ApiError.http filterParseMsg 500), none) := by
  obtain ⟨h1, h2, h3, h4⟩ := claim_C7_filter_validation storeZero userU1 [1] cFields
  exact ⟨h1, h2, h3 (by decide), h4 (by decide)⟩
